import Mathlib

/-!
# Verification of CFARNet `train.py` core components

Shallow embedding of the core data/metric/control components of
`src/train.py` (CFARNet), together with theorems settling the formalised
claims about them.

Conventions of the embedding:
* Python floats are modelled as `ℚ` (for executable code paths) or `ℝ`
  (for transcendental formulas); NaN/Inf are modelled explicitly by the
  `FVal` type where the code tests for them, and `float('inf')` used as a
  best-loss sentinel is modelled as `⊤ : WithTop ℚ`.
* numpy arrays become `List`s; the on-disk shard directory becomes a
  function `ℕ → Option (List α)` (`none` = the shard file is absent).
* Python exceptions become `Except` error values.
-/

set_option autoImplicit false

/-! ## Floating-point status values (NaN / Inf detection)

`train.py` tests losses with `torch.isnan` / `torch.isinf`
(lines 554, 967).  A float that can carry those states is modelled as: -/

/-- A float value as tested by `torch.isnan(loss) or torch.isinf(loss)`:
either a finite rational, NaN, or an infinity. -/
inductive FVal where
  | fin (q : ℚ)
  | nan
  | inf
  deriving DecidableEq, Repr

/-- Model of `torch.isnan`. -/
def FVal.isNaN : FVal → Bool
  | .nan => true
  | _ => false

/-- Model of `torch.isinf`. -/
def FVal.isInf : FVal → Bool
  | .inf => true
  | _ => false

/-- Model of `loss.item()` for a finite loss (only ever used on the finite
branch of the code). -/
def FVal.item : FVal → ℚ
  | .fin q => q
  | _ => 0

/-! ## ChunkedEchoDataset (train.py lines 29-138)

The dataset stores, after construction: the slice start index, the number
of samples, the chunk size (positive after the construction check on line
74), the shard directory, and the per-sample peak labels already adjusted
to width `expected_k` (lines 93-105). -/

/-- Errors raised by `ChunkedEchoDataset` construction (`__init__`). -/
inductive DatasetInitError where
  | invalidChunkSize   -- line 74: `samples_per_chunk must be positive`
  | invalidRange       -- line 88: `Invalid adjusted sample range`
  deriving DecidableEq, Repr

/-- Errors raised by `ChunkedEchoDataset.__getitem__`. -/
inductive GetItemError where
  | indexOutOfRange    -- line 113: IndexError, index outside [0, num_samples-1]
  | fileNotFound       -- line 119: FileNotFoundError, shard file absent
  | offsetOutOfRange   -- line 124: IndexError, offset beyond the loaded shard
  deriving DecidableEq, Repr

/-- State of a constructed `ChunkedEchoDataset`; `α` is the type of one
echo sample (one entry of a shard array). -/
structure ChunkedEchoDataset (α : Type) where
  start_idx : ℕ
  num_samples : ℤ
  chunk_size : ℕ
  echoes : ℕ → Option (List α)
  m_peak_targets : List (List ℤ)

/-- The slice `m_peak_all[start_idx : end_idx + 1]` (line 90). -/
def sliceRows (l : List (List ℤ)) (start_idx : ℕ) (end_idx : ℤ) : List (List ℤ) :=
  (l.drop start_idx).take (end_idx + 1 - start_idx).toNat

/-- Label width reconciliation at construction (lines 94-104): pad each
row with the sentinel `-1` when the stored width is below `expected_k`,
truncate to the first `expected_k` entries when it is above.  The stored
width is the numpy shape entry `shape[1]`, read off the first row. -/
def adjustLabels (labels : List (List ℤ)) (expected_k : ℕ) : List (List ℤ) :=
  let actual_k := (labels.headD []).length
  if actual_k < expected_k then
    labels.map (fun r => r ++ List.replicate (expected_k - actual_k) (-1))
  else if expected_k < actual_k then
    labels.map (fun r => r.take expected_k)
  else
    labels

/-- Clamped end index (lines 85-87): if `end_idx` reaches past the number
of labelled samples on disk it is pulled back to `total - 1`. -/
def clampedEnd (total : ℕ) (end_idx : ℤ) : ℤ :=
  if (total : ℤ) ≤ end_idx then (total : ℤ) - 1 else end_idx

/-- `ChunkedEchoDataset.__init__` (lines 35-107): checks the chunk size,
clamps the requested range against the labels on disk, slices the label
array and reconciles its width, once, at construction. -/
def mkChunkedEchoDataset {α : Type} (echoes : ℕ → Option (List α)) (chunk_size : ℤ)
    (m_peak_all : List (List ℤ)) (start_idx : ℕ) (end_idx : ℤ) (expected_k : ℕ) :
    Except DatasetInitError (ChunkedEchoDataset α) :=
  if chunk_size ≤ 0 then .error .invalidChunkSize
  else
    let total := m_peak_all.length
    let e := clampedEnd total end_idx
    let num := e - start_idx + 1
    if (total : ℤ) ≤ end_idx ∧ num ≤ 0 then .error .invalidRange
    else
      .ok { start_idx := start_idx
            num_samples := num
            chunk_size := chunk_size.toNat
            echoes := echoes
            m_peak_targets := adjustLabels (sliceRows m_peak_all start_idx e) expected_k }

/-- `ChunkedEchoDataset.__getitem__` (lines 112-138): range-check the
index first (before touching any file), then address the shard store by
`chunk_idx = absolute // chunk_size`, `index_in_chunk = absolute %
chunk_size`, failing when the shard file is absent or the offset is not
below the loaded shard's length.  The label returned is the stored,
already-adjusted row. -/
def getItem {α : Type} (ds : ChunkedEchoDataset α) (index : ℤ) :
    Except GetItemError (α × List ℤ) :=
  if index < 0 ∨ ds.num_samples ≤ index then .error .indexOutOfRange
  else
    let absolute_idx := ds.start_idx + index.toNat
    let chunk_idx := absolute_idx / ds.chunk_size
    let index_in_chunk := absolute_idx % ds.chunk_size
    match ds.echoes chunk_idx with
    | none => .error .fileNotFound
    | some echo_chunk =>
      if h : index_in_chunk < echo_chunk.length then
        .ok (echo_chunk.get ⟨index_in_chunk, h⟩, ds.m_peak_targets.getD index.toNat [])
      else .error .offsetOutOfRange

/-! ## Top-K accuracy metric (`calculate_accuracy_topk`, lines 376-436) -/

/-- Stable descending insertion of an (index, probability) pair: the new
pair goes after all earlier pairs of greater-or-equal probability. -/
def insertDesc (x : ℕ × ℚ) : List (ℕ × ℚ) → List (ℕ × ℚ)
  | [] => [x]
  | y :: ys => if y.2 < x.2 then x :: y :: ys else y :: insertDesc x ys

/-- Stable descending sort by probability (ties keep the original — i.e.
lower-index-first — order).  This fixes one deterministic realisation of
`torch.topk`, whose tie order the source leaves implementation-defined. -/
def sortDesc (l : List (ℕ × ℚ)) : List (ℕ × ℚ) :=
  l.foldl (fun acc x => insertDesc x acc) []

/-- The indices of the `k` largest entries of a probability row, in
decreasing order of probability — the model of
`torch.topk(pred_probs, k=k, dim=1)` on one row (line 401). -/
def topkIdx (row : List ℚ) (k : ℕ) : List ℕ :=
  ((sortDesc row.enum).take k).map (·.1)

/-- The valid true peak indices of one sample: the entries that are
neither the sentinel `-1` nor out of range (line 406). -/
def sampleValid (M_plus_1 : ℕ) (tb : List ℤ) : List ℤ :=
  tb.filter (fun t => decide (0 ≤ t ∧ t < (M_plus_1 : ℤ)))

/-- Minimum absolute distance from a true index to the top-k predicted
indices (lines 421-424); `none` when there are no predictions. -/
def minDistTo (t : ℤ) (preds : List ℕ) : Option ℕ :=
  (preds.map (fun p : ℕ => (t - (p : ℤ)).natAbs)).min?

/-- A true peak is a hit when its minimum distance to the top-k predicted
indices is within the tolerance (line 427). -/
def isHit (tol : ℤ) (preds : List ℕ) (t : ℤ) : Bool :=
  match minDistTo t preds with
  | some d => decide ((d : ℤ) ≤ tol)
  | none => false

/-- Contribution of one sample of the batch loop (lines 403-428):
(valid-true-count added to the denominator, hits added to the numerator).
A sample with no valid true labels contributes nothing (line 410); the
count is added before the (defensive) empty-prediction check (line 416). -/
def sampleStats (M_plus_1 k : ℕ) (tol : ℤ) (pr : List ℚ) (tb : List ℤ) : ℕ × ℕ :=
  let valid_true_peaks := sampleValid M_plus_1 tb
  if valid_true_peaks.length = 0 then (0, 0)
  else
    let preds := topkIdx pr k
    if preds.isEmpty then (valid_true_peaks.length, 0)
    else (valid_true_peaks.length, (valid_true_peaks.filter (isHit tol preds)).length)

/-- `calculate_accuracy_topk` (lines 376-436): batch Recall@TopK with
tolerance.  Returns 0 on an empty batch (line 390) or non-positive
clamped k (lines 396-397); returns 1 when the whole batch has no valid
true peaks (lines 431-433); otherwise `total_hits / total_true_peaks`. -/
def calculate_accuracy_topk (pred_probs : List (List ℚ)) (true_peak_indices_batch : List (List ℤ))
    (k : ℤ) (tolerance : ℤ) : ℚ :=
  let batch_size := pred_probs.length
  let M_plus_1 := (pred_probs.headD []).length
  if batch_size = 0 then 0
  else
    let keff := min k (M_plus_1 : ℤ)
    if keff ≤ 0 then 0
    else
      let stats := (List.zip pred_probs true_peak_indices_batch).map
        (fun s => sampleStats M_plus_1 keff.toNat tolerance s.1 s.2)
      let total_true_peaks_count : ℕ := (stats.map (·.1)).sum
      let total_hits : ℕ := (stats.map (·.2)).sum
      if total_true_peaks_count = 0 then 1
      else (total_hits : ℚ) / (total_true_peaks_count : ℚ)

/-- Batch-level denominator of the metric: the number of valid true peaks
summed over all samples of the batch. -/
def totalValidTrue (M_plus_1 : ℕ) (samples : List (List ℚ × List ℤ)) : ℕ :=
  (samples.map (fun s => (sampleValid M_plus_1 s.2).length)).sum

/-- Batch-level numerator of the metric: the number of valid true peaks
whose minimum distance to that sample's top-k predictions is within the
tolerance, summed over all samples of the batch. -/
def totalHits (M_plus_1 k : ℕ) (tol : ℤ) (samples : List (List ℚ × List ℤ)) : ℕ :=
  (samples.map (fun s => ((sampleValid M_plus_1 s.2).filter (isHit tol (topkIdx s.1 k))).length)).sum

/-! ## Gaussian target smoothing (`create_gaussian_target`, lines 229-261) -/

/-- The peak indices kept by `create_gaussian_target` (line 244):
entries in `[0, M_plus_1 - 1]`. -/
def validPeaks (peak_indices : List ℤ) (M_plus_1 : ℕ) : List ℤ :=
  peak_indices.filter (fun p => decide (0 ≤ p ∧ p < (M_plus_1 : ℤ)))

/-- `create_gaussian_target` (lines 229-261): discard invalid peaks;
all-zero vector when none remain; otherwise sum a Gaussian bump per valid
peak over the position grid and normalise to total mass 1 (the positivity
guard of line 258 is kept verbatim). -/
noncomputable def create_gaussian_target (peak_indices : List ℤ) (M_plus_1 : ℕ) (sigma : ℝ) :
    List ℝ :=
  let valid_peaks := validPeaks peak_indices M_plus_1
  if valid_peaks = [] then List.replicate M_plus_1 0
  else
    let gaussian_sum := fun (pos : ℕ) =>
      (valid_peaks.map (fun peak => Real.exp (-0.5 * (((pos : ℝ) - (peak : ℝ)) / sigma) ^ 2))).sum
    let vec := (List.range M_plus_1).map gaussian_sum
    if 0 < vec.sum then vec.map (fun x => x / vec.sum) else vec

/-! ## Power-to-amplitude conversion (lines 521-522, 908, 750-753) -/

/-- `scale_factor(power_dbm) = sqrt(10 ** (power_dbm / 10))`, the linear
amplitude multiplier applied to a clean echo for a given dBm level. -/
noncomputable def scale_factor (power_dbm : ℝ) : ℝ :=
  Real.sqrt ((10 : ℝ) ^ (power_dbm / 10))

/-! ## Per-level evaluation record (`test_model`, lines 507-593) -/

/-- One `{loss, accuracy, count}` record of `results_per_pt`.  The loss
is `WithTop ℚ` because the no-valid-batch case stores `float('inf')`
(line 590). -/
structure LevelRecord where
  loss : WithTop ℚ
  accuracy : ℚ
  count : ℕ
  deriving DecidableEq, Repr

/-- Aggregation of one power level of `test_model` (lines 526-593): each
batch contributes its (loss, accuracy) pair; NaN/Inf-loss batches are
excluded from the accumulators (line 554); if no batch contributed, the
record is `{loss := ⊤, accuracy := 0, count := 0}` (lines 589-592). -/
def aggregateLevel (batches : List (FVal × ℚ)) : LevelRecord :=
  let r := batches.foldl
    (fun (acc : ℚ × ℚ × ℕ) b =>
      if b.1.isNaN || b.1.isInf then acc
      else (acc.1 + b.1.item, acc.2.1 + b.2, acc.2.2 + 1))
    (0, 0, 0)
  if 0 < r.2.2 then
    { loss := ((r.1 / (r.2.2 : ℚ) : ℚ) : WithTop ℚ)
      accuracy := r.2.1 / (r.2.2 : ℚ)
      count := r.2.2 }
  else { loss := ⊤, accuracy := 0, count := 0 }

/-! ## Early stopping (`main`, lines 657-667 and 1034-1082) -/

/-- Early-stopping state of the training controller: best critical
validation loss so far (starts at `float('inf')`, line 870) and the
early-stop counter. -/
structure EarlyStopState where
  best_val_loss : WithTop ℚ
  early_stop_counter : ℕ
  deriving DecidableEq, Repr

/-- Outcome of the per-epoch early-stopping update: new state, whether a
checkpoint save was performed, whether training terminates. -/
structure EpochOutcome where
  state : EarlyStopState
  saved : Bool
  stopped : Bool
  deriving DecidableEq, Repr

/-- The critical validation power level: `min(args.val_pt_dbm_list)`
(line 666). -/
def criticalValPt (val_pt_dbm_list : List ℚ) : ℚ :=
  val_pt_dbm_list.min?.getD 0

/-- The epoch-end early-stopping transition (lines 1070-1082): on a valid
validation run with strictly improved critical loss, save a checkpoint
and reset the counter; on a valid run without improvement, increment the
counter and stop at patience; if validation produced no valid batch at
any level, leave the counter untouched. -/
def epochUpdate (patience : ℕ) (valid_validation_run : Bool) (critical : WithTop ℚ)
    (s : EarlyStopState) : EpochOutcome :=
  if valid_validation_run ∧ critical < s.best_val_loss then
    { state := { best_val_loss := critical, early_stop_counter := 0 }
      saved := true
      stopped := false }
  else if valid_validation_run then
    let c := s.early_stop_counter + 1
    { state := { best_val_loss := s.best_val_loss, early_stop_counter := c }
      saved := false
      stopped := patience ≤ c }
  else
    { state := s, saved := false, stopped := false }

/-- One epoch of the early-stopping control flow of `main`
(lines 1034-1082): the validation records drive `epochUpdate` through the
loss at the critical (minimum) power level, and the run counts as valid
when at least one level has a positive batch count. -/
def mainEpochStep (val_pt_dbm_list : List ℚ) (records : ℚ → LevelRecord) (patience : ℕ)
    (s : EarlyStopState) : EpochOutcome :=
  epochUpdate patience
    (val_pt_dbm_list.any (fun pt => decide (0 < (records pt).count)))
    ((records (criticalValPt val_pt_dbm_list)).loss) s

/-! ## Training batch step (`main`, lines 964-981) -/

/-- Per-epoch accumulators touched by one training batch.  `α` is the
(abstract) type of the model parameter vector. -/
structure TrainBatchState (α : Type) where
  params : α
  nan_skipped_count : ℕ
  train_batch_count : ℕ
  epoch_train_loss : ℚ
  epoch_train_topk_accuracy_sum : ℚ
  train_acc_batches : ℕ

/-- One training batch step after the loss is computed (lines 967-981).
`backward`, `clipGradNorm` and `optStep` abstract `loss.backward()`,
`torch.nn.utils.clip_grad_norm_` and `optimizer.step()` (`β` is the type
of the gradient produced by back-propagation).  On a NaN/Inf loss the
step is skipped and counted; otherwise the gradient is computed, clipped
when the ceiling is positive, the optimizer steps, and the loss and the
Top-K accuracy of the batch are accumulated. -/
def trainBatchStep {α β : Type} (clip_grad_norm : ℚ)
    (backward : α → β) (clipGradNorm : ℚ → β → β) (optStep : α → β → α)
    (k tolerance : ℤ) (loss : FVal) (pred_probs : List (List ℚ))
    (m_peak_targets : List (List ℤ)) (s : TrainBatchState α) : TrainBatchState α :=
  if loss.isNaN || loss.isInf then
    { s with nan_skipped_count := s.nan_skipped_count + 1 }
  else
    let grad := backward s.params
    let grad := if 0 < clip_grad_norm then clipGradNorm clip_grad_norm grad else grad
    let batch_accuracy := calculate_accuracy_topk pred_probs m_peak_targets k tolerance
    { params := optStep s.params grad
      nan_skipped_count := s.nan_skipped_count
      train_batch_count := s.train_batch_count + 1
      epoch_train_loss := s.epoch_train_loss + loss.item
      epoch_train_topk_accuracy_sum := s.epoch_train_topk_accuracy_sum + batch_accuracy
      train_acc_batches := s.train_acc_batches + 1 }

/-- Concrete shard store of evaluation scen. A (spec §8): chunk_size 100,
250 labelled samples, K_max 4; shard files hold the global indices they
store, so the value read back identifies the (shard, offset) addressed. -/
def scenStoreA : ChunkedEchoDataset ℕ :=
  { start_idx := 0
    num_samples := 250
    chunk_size := 100
    echoes := fun i =>
      if i < 2 then some ((List.range 100).map (fun j => 100 * i + j))
      else if i = 2 then some ((List.range 50).map (fun j => 200 + j))
      else none
    m_peak_targets := List.replicate 250 [1, 2, 3, -1] }

/-! ## Theorems -/

/-- C6: the power-to-amplitude conversion satisfies
`scale_factor 0 = 1` and is strictly increasing in the dBm value. -/
theorem claim_C6_scale_factor :
    scale_factor 0 = 1 ∧
    ∀ d1 d2 : ℝ, d1 < d2 → scale_factor d1 < scale_factor d2 := by
  constructor
  · simp [scale_factor, Real.rpow_zero]
  · intro d1 d2 h
    unfold scale_factor
    apply Real.sqrt_lt_sqrt (Real.rpow_nonneg (by norm_num) _)
    exact (Real.rpow_lt_rpow_left_iff (by norm_num : (1:ℝ) < 10)).mpr (by linarith)

/-- Witness for C6 at a concrete pair of power levels. -/
theorem claim_C6_witness : scale_factor (-10) < scale_factor 0 :=
  claim_C6_scale_factor.2 (-10) 0 (by norm_num)

/-- C9: for every index outside `[0, num_samples - 1]` — negative ones
included — `__getitem__` raises IndexError; since this holds for every
shard store `ds.echoes`, no shard file is opened or read, and
Python-style negative indexing from the end is never performed. -/
theorem claim_C9_getitem_range_check {α : Type} (ds : ChunkedEchoDataset α) (index : ℤ)
    (h : index < 0 ∨ ds.num_samples ≤ index) :
    getItem ds index = .error .indexOutOfRange := by
  unfold getItem
  rw [if_pos h]

/-- Witness for C9: a negative index on a concrete dataset. -/
theorem claim_C9_witness :
    getItem (⟨0, 250, 100, fun _ => none, []⟩ : ChunkedEchoDataset ℕ) (-1) =
      .error .indexOutOfRange :=
  claim_C9_getitem_range_check _ (-1) (Or.inl (by norm_num))

/-- C4: for every in-range index, `__getitem__` addresses storage by
`shard = global_index / chunk_size` and `offset = global_index %
chunk_size`: it fails with the file-not-found error when that shard file
is absent, fails with the out-of-range indexing error when the offset is
not below the loaded shard's own length, and otherwise returns the
element at that offset of that shard; concretely, with chunk_size 100 the
sample at global index 150 is read from shard 1 at offset 50. -/
theorem claim_C4_getitem_addressing :
    (∀ {α : Type} (ds : ChunkedEchoDataset α) (index : ℤ),
      0 ≤ index → index < ds.num_samples →
      (ds.echoes ((ds.start_idx + index.toNat) / ds.chunk_size) = none →
        getItem ds index = .error .fileNotFound) ∧
      (∀ chunk, ds.echoes ((ds.start_idx + index.toNat) / ds.chunk_size) = some chunk →
        chunk.length ≤ (ds.start_idx + index.toNat) % ds.chunk_size →
        getItem ds index = .error .offsetOutOfRange) ∧
      (∀ chunk (hoff : (ds.start_idx + index.toNat) % ds.chunk_size < chunk.length),
        ds.echoes ((ds.start_idx + index.toNat) / ds.chunk_size) = some chunk →
        getItem ds index =
          .ok (chunk.get ⟨(ds.start_idx + index.toNat) % ds.chunk_size, hoff⟩,
               ds.m_peak_targets.getD index.toNat []))) ∧
    getItem scenStoreA 150 = .ok (150, [1, 2, 3, -1]) := by
  refine ⟨?_, by rfl⟩
  · intro α ds index h0 hlt
    have hcond : ¬(index < 0 ∨ ds.num_samples ≤ index) := by
      push_neg
      exact ⟨not_lt.mpr h0 |> not_lt.mp |> fun _ => h0, hlt⟩
    refine ⟨?_, ?_, ?_⟩
    · intro hnone
      unfold getItem
      rw [if_neg hcond]
      simp only [hnone]
    · intro chunk hsome hle
      unfold getItem
      rw [if_neg hcond]
      simp only [hsome]
      rw [dif_neg (not_lt.mpr hle)]
    · intro chunk hoff hsome
      unfold getItem
      rw [if_neg hcond]
      simp only [hsome]
      rw [dif_pos hoff]

/-- Witness for C4: the shard file for global index 42 of a concrete
single-shard store is absent, so retrieval fails with file-not-found. -/
theorem claim_C4_witness :
    getItem (⟨0, 250, 100, fun _ => none, []⟩ : ChunkedEchoDataset ℕ) 42 =
      .error .fileNotFound :=
  ((claim_C4_getitem_addressing.1
      (⟨0, 250, 100, fun _ => none, []⟩ : ChunkedEchoDataset ℕ) 42
      (by norm_num) (by norm_num)).1) rfl

/-- C5: with the stored label array rectangular of width `w`, every row
produced by the construction-time reconciliation has length exactly
`expected_k`: rows are right-padded with the sentinel `-1` when
`w < expected_k`, truncated to their first `expected_k` entries when
`w > expected_k`, and untouched when the widths agree; construction
stores exactly this adjusted array, and `__getitem__` returns the stored
row unchanged. -/
theorem claim_C5_label_reconciliation :
    (∀ (labels : List (List ℤ)) (expected_k w : ℕ), (∀ r ∈ labels, r.length = w) →
      (∀ r ∈ adjustLabels labels expected_k, r.length = expected_k) ∧
      (w < expected_k →
        adjustLabels labels expected_k =
          labels.map (fun r => r ++ List.replicate (expected_k - w) (-1))) ∧
      (expected_k < w →
        adjustLabels labels expected_k = labels.map (fun r => r.take expected_k)) ∧
      (w = expected_k → adjustLabels labels expected_k = labels)) ∧
    (∀ {α : Type} (echoes : ℕ → Option (List α)) (chunk_size : ℤ)
        (m_peak_all : List (List ℤ)) (start_idx : ℕ) (end_idx : ℤ) (expected_k : ℕ)
        (ds : ChunkedEchoDataset α),
      mkChunkedEchoDataset echoes chunk_size m_peak_all start_idx end_idx expected_k = .ok ds →
      ds.m_peak_targets =
        adjustLabels (sliceRows m_peak_all start_idx (clampedEnd m_peak_all.length end_idx))
          expected_k) ∧
    (∀ {α : Type} (ds : ChunkedEchoDataset α) (index : ℤ) (echo : α) (lab : List ℤ),
      getItem ds index = .ok (echo, lab) → lab = ds.m_peak_targets.getD index.toNat []) := by
  refine ⟨?_, ?_, ?_⟩
  · intro labels expected_k w hw
    match labels with
    | [] =>
      refine ⟨by simp [adjustLabels], ?_, ?_, ?_⟩ <;> intro h <;> simp [adjustLabels]
    | r0 :: rest =>
      have hk : ((r0 :: rest).headD []).length = w := hw r0 (List.mem_cons_self _ _)
      refine ⟨?_, ?_, ?_, ?_⟩
      · intro r hr
        unfold adjustLabels at hr
        rw [hk] at hr
        rcases lt_trichotomy w expected_k with h | h | h
        · rw [if_pos h] at hr
          obtain ⟨x, hx, rfl⟩ := List.mem_map.mp hr
          have := hw x hx
          simp [this]
          omega
        · rw [if_neg (by omega), if_neg (by omega)] at hr
          exact hw r hr ▸ h ▸ rfl
        · rw [if_neg (by omega), if_pos h] at hr
          obtain ⟨x, hx, rfl⟩ := List.mem_map.mp hr
          have := hw x hx
          simp [this]
          omega
      · intro h
        unfold adjustLabels
        rw [hk, if_pos h]
      · intro h
        unfold adjustLabels
        rw [hk, if_neg (by omega), if_pos h]
      · intro h
        unfold adjustLabels
        rw [hk, h, if_neg (by omega), if_neg (by omega)]
  · intro α echoes chunk_size m_peak_all start_idx end_idx expected_k ds h
    unfold mkChunkedEchoDataset at h
    split at h
    · exact absurd h (by simp)
    · dsimp only at h
      split at h
      · exact absurd h (by simp)
      · simp only [Except.ok.injEq] at h
        subst h
        rfl
  · intro α ds index echo lab h
    unfold getItem at h
    split at h
    · exact absurd h (by simp)
    · dsimp only at h
      split at h
      · exact absurd h (by simp)
      · split at h
        · simp only [Except.ok.injEq, Prod.mk.injEq] at h
          exact h.2.symm
        · exact absurd h (by simp)

/-- Witness for C5: a width-2 stored label array padded to K_max = 4. -/
theorem claim_C5_witness :
    adjustLabels [[(1:ℤ), 2]] 4 = [[(1:ℤ), 2]].map (fun r => r ++ List.replicate 2 (-1)) :=
  ((claim_C5_label_reconciliation.1 [[(1:ℤ), 2]] 4 2 (by decide)).2.1) (by norm_num)

/-- Sum of a list divided elementwise by a constant. -/
theorem listSumMapDiv (l : List ℝ) (c : ℝ) : (l.map (fun x => x / c)).sum = l.sum / c := by
  induction l with
  | nil => simp
  | cons a t ih => simp [ih, add_div]

/-- C1: `create_gaussian_target` always returns a vector of length
`M_plus_1`; its entries sum to 1 whenever at least one valid peak index
remains after discarding sentinel/out-of-range entries, and it is the
all-zero vector of length `M_plus_1` whenever none remains. -/
theorem claim_C1_gaussian_target (peak_indices : List ℤ) (M_plus_1 : ℕ) (sigma : ℝ) :
    (create_gaussian_target peak_indices M_plus_1 sigma).length = M_plus_1 ∧
    (validPeaks peak_indices M_plus_1 ≠ [] →
      (create_gaussian_target peak_indices M_plus_1 sigma).sum = 1) ∧
    (validPeaks peak_indices M_plus_1 = [] →
      create_gaussian_target peak_indices M_plus_1 sigma = List.replicate M_plus_1 0) := by
  by_cases hv : validPeaks peak_indices M_plus_1 = []
  · refine ⟨?_, fun h => absurd hv h, fun _ => ?_⟩
    · simp only [create_gaussian_target]
      rw [if_pos hv]
      exact List.length_replicate _ _
    · simp only [create_gaussian_target]
      rw [if_pos hv]
  · have hM : 0 < M_plus_1 := by
      cases h' : validPeaks peak_indices M_plus_1 with
      | nil => exact absurd h' hv
      | cons p rest =>
        have hp : p ∈ validPeaks peak_indices M_plus_1 := by
          rw [h']
          exact List.mem_cons_self _ _
        have hp' := List.mem_filter.mp hp
        simp only [decide_eq_true_eq] at hp'
        obtain ⟨-, h1, h2⟩ := hp'
        omega
    simp only [create_gaussian_target]
    rw [if_neg hv]
    split
    · next hVpos =>
      refine ⟨by simp, fun _ => ?_, fun h => absurd h hv⟩
      rw [listSumMapDiv]
      exact div_self (ne_of_gt hVpos)
    · next hVpos =>
      exfalso
      apply hVpos
      apply List.sum_pos
      · intro x hx
        obtain ⟨pos, -, rfl⟩ := List.mem_map.mp hx
        apply List.sum_pos
        · intro y hy
          obtain ⟨peak, -, rfl⟩ := List.mem_map.mp hy
          exact Real.exp_pos _
        · intro hmn
          exact hv (List.eq_nil_iff_forall_not_mem.mpr (by simpa using hmn))
      · intro hmn
        have : M_plus_1 = 0 := by simpa using hmn
        omega

/-- Witness for C1: PeakLabel `[3, -1]` over 10 bins has a valid peak and
its smoothed target sums to 1. -/
theorem claim_C1_witness : (create_gaussian_target [3, -1] 10 1).sum = 1 :=
  (claim_C1_gaussian_target [3, -1] 10 1).2.1 (by decide)

/-- The guards of the per-sample loop body do not change its counts: a
sample contributes its valid-true count and the number of valid trues
that hit the top-k predictions. -/
theorem sampleStats_eq (M_plus_1 k : ℕ) (tol : ℤ) (pr : List ℚ) (tb : List ℤ) :
    sampleStats M_plus_1 k tol pr tb =
      ((sampleValid M_plus_1 tb).length,
       ((sampleValid M_plus_1 tb).filter (isHit tol (topkIdx pr k))).length) := by
  unfold sampleStats
  by_cases h0 : (sampleValid M_plus_1 tb).length = 0
  · rw [if_pos h0]
    have hnil : sampleValid M_plus_1 tb = [] := List.length_eq_zero.mp h0
    simp [hnil]
  · rw [if_neg h0]
    by_cases hp : (topkIdx pr k).isEmpty
    · rw [if_pos hp]
      have hnil : topkIdx pr k = [] := by
        cases h : topkIdx pr k with
        | nil => rfl
        | cons a l => rw [h] at hp; simp [List.isEmpty] at hp
      have hfalse : isHit tol [] = fun _ : ℤ => false := by
        funext t
        rfl
      simp [hnil, hfalse]
    · rw [if_neg hp]

/-- Denominator of the batch metric, extracted from the loop. -/
theorem statsFstSum (M_plus_1 k : ℕ) (tol : ℤ) (samples : List (List ℚ × List ℤ)) :
    ((samples.map (fun s => sampleStats M_plus_1 k tol s.1 s.2)).map (·.1)).sum =
      totalValidTrue M_plus_1 samples := by
  unfold totalValidTrue
  rw [List.map_map]
  exact congrArg List.sum (List.map_congr_left fun s _ => by
    simp [Function.comp, sampleStats_eq])

/-- Numerator of the batch metric, extracted from the loop. -/
theorem statsSndSum (M_plus_1 k : ℕ) (tol : ℤ) (samples : List (List ℚ × List ℤ)) :
    ((samples.map (fun s => sampleStats M_plus_1 k tol s.1 s.2)).map (·.2)).sum =
      totalHits M_plus_1 k tol samples := by
  unfold totalHits
  rw [List.map_map]
  exact congrArg List.sum (List.map_congr_left fun s _ => by
    simp [Function.comp, sampleStats_eq])

/-- The batch never counts more hits than valid true peaks. -/
theorem totalHits_le (M_plus_1 k : ℕ) (tol : ℤ) (samples : List (List ℚ × List ℤ)) :
    totalHits M_plus_1 k tol samples ≤ totalValidTrue M_plus_1 samples := by
  unfold totalHits totalValidTrue
  apply List.sum_le_sum
  intro s _
  exact List.length_filter_le _ _

/-- Hit criterion characterised: with at least one prediction, the
minimum distance is within tolerance exactly when some top-k predicted
index is within tolerance of the true index. -/
theorem isHit_iff (t : ℤ) (preds : List ℕ) (tol : ℤ) (h : preds ≠ []) :
    isHit tol preds t = true ↔ ∃ p : ℕ, p ∈ preds ∧ (((t - (p : ℤ)).natAbs : ℤ)) ≤ tol := by
  cases hmin : minDistTo t preds with
  | none =>
    unfold minDistTo at hmin
    rw [List.min?_eq_none_iff] at hmin
    exact absurd (by simpa using hmin) h
  | some d =>
    have hmm := hmin
    unfold minDistTo at hmm
    rw [List.min?_eq_some_iff'] at hmm
    obtain ⟨hdmem, hdle⟩ := hmm
    simp only [isHit, hmin, decide_eq_true_eq]
    constructor
    · intro hd
      obtain ⟨p, hpmem, hpd⟩ := List.mem_map.mp hdmem
      exact ⟨p, hpmem, by rw [hpd]; exact hd⟩
    · intro ⟨p, hpmem, hple⟩
      have : d ≤ (t - (p : ℤ)).natAbs :=
        hdle _ (List.mem_map.mpr ⟨p, hpmem, rfl⟩)
      omega

/-- `calculate_accuracy_topk` unfolded on a non-degenerate batch: the
hits/valid ratio or the vacuous 1. -/
theorem calc_acc_unfold (pp : List (List ℚ)) (tb : List (List ℤ)) (k tol : ℤ)
    (hpp : pp ≠ []) (hk : 0 < min k (((pp.headD []).length : ℤ))) :
    calculate_accuracy_topk pp tb k tol =
      (if totalValidTrue (pp.headD []).length (List.zip pp tb) = 0 then 1
       else (totalHits (pp.headD []).length (min k (((pp.headD []).length : ℤ))).toNat tol
              (List.zip pp tb) : ℚ) /
            (totalValidTrue (pp.headD []).length (List.zip pp tb) : ℚ)) := by
  simp only [calculate_accuracy_topk]
  rw [if_neg (by simpa using hpp), if_neg (not_le.mpr hk), statsFstSum, statsSndSum]

/-- C2: on a non-empty batch with positive clamped k and at least one
valid (non-sentinel, in-range) true label, `calculate_accuracy_topk`
returns `total_hits / total_valid_true_labels`, where a valid true label
is a hit exactly when the minimum absolute distance to that sample's
top-k predicted indices is within tolerance (equivalently: some top-k
index lies within tolerance); on the end-to-end batch with top-4
predictions at `{3, 7, 15, 19}`, true labels `{5, 20}`, `M_plus_1 = 20`
and tolerance 3 the result is 1; and the result always lies in [0, 1]. -/
theorem claim_C2_recall_topk :
    (∀ (pp : List (List ℚ)) (tb : List (List ℤ)) (k tol : ℤ),
      pp ≠ [] → tb.length = pp.length →
      0 < min k (((pp.headD []).length : ℤ)) →
      0 < totalValidTrue (pp.headD []).length (List.zip pp tb) →
      calculate_accuracy_topk pp tb k tol =
        (totalHits (pp.headD []).length (min k (((pp.headD []).length : ℤ))).toNat tol
          (List.zip pp tb) : ℚ) /
        (totalValidTrue (pp.headD []).length (List.zip pp tb) : ℚ)) ∧
    (∀ (t : ℤ) (preds : List ℕ) (tol : ℤ), preds ≠ [] →
      (isHit tol preds t = true ↔ ∃ p : ℕ, p ∈ preds ∧ (((t - (p : ℤ)).natAbs : ℤ)) ≤ tol)) ∧
    calculate_accuracy_topk
      [[0, 0, 0, 1, 0, 0, 0, 1, 0, 0, 0, 0, 0, 0, 0, 1, 0, 0, 0, 1]] [[5, 20]] 4 3 = 1 ∧
    (∀ (pp : List (List ℚ)) (tb : List (List ℤ)) (k tol : ℤ),
      0 ≤ calculate_accuracy_topk pp tb k tol ∧ calculate_accuracy_topk pp tb k tol ≤ 1) := by
  refine ⟨?_, isHit_iff, ?_, ?_⟩
  · intro pp tb k tol hpp _ hk hval
    rw [calc_acc_unfold pp tb k tol hpp hk, if_neg (by omega)]
  · rw [calc_acc_unfold _ _ _ _ (by decide) (by decide), if_neg (by decide)]
    have h1 : totalValidTrue
        ([[(0:ℚ), 0, 0, 1, 0, 0, 0, 1, 0, 0, 0, 0, 0, 0, 0, 1, 0, 0, 0, 1]].headD []).length
        (List.zip [[(0:ℚ), 0, 0, 1, 0, 0, 0, 1, 0, 0, 0, 0, 0, 0, 0, 1, 0, 0, 0, 1]]
          [[5, 20]]) = 1 := by decide
    have h2 : totalHits
        ([[(0:ℚ), 0, 0, 1, 0, 0, 0, 1, 0, 0, 0, 0, 0, 0, 0, 1, 0, 0, 0, 1]].headD []).length
        ((min 4 ((([[(0:ℚ), 0, 0, 1, 0, 0, 0, 1, 0, 0, 0, 0, 0, 0, 0, 1, 0, 0, 0, 1]].headD
          []).length : ℤ))).toNat) 3
        (List.zip [[(0:ℚ), 0, 0, 1, 0, 0, 0, 1, 0, 0, 0, 0, 0, 0, 0, 1, 0, 0, 0, 1]]
          [[5, 20]]) = 1 := by decide
    rw [h1, h2]
    norm_num
  · intro pp tb k tol
    by_cases h0 : pp.length = 0
    · simp only [calculate_accuracy_topk]
      rw [if_pos h0]
      norm_num
    · by_cases hk : min k (((pp.headD []).length : ℤ)) ≤ 0
      · simp only [calculate_accuracy_topk]
        rw [if_neg h0, if_pos hk]
        norm_num
      · rw [calc_acc_unfold pp tb k tol (by simpa using h0) (not_le.mp hk)]
        split
        · norm_num
        · next hT =>
          have hTpos : (0 : ℚ) < (totalValidTrue (pp.headD []).length (List.zip pp tb) : ℚ) := by
            exact_mod_cast Nat.pos_of_ne_zero hT
          constructor
          · exact div_nonneg (Nat.cast_nonneg _) (le_of_lt hTpos)
          · rw [div_le_one hTpos]
            exact_mod_cast totalHits_le _ _ _ _

/-- Witness for C2 on the end-to-end batch: the hits/valid formula
instantiated at the concrete scen. C input. -/
theorem claim_C2_witness :
    calculate_accuracy_topk
      [[0, 0, 0, 1, 0, 0, 0, 1, 0, 0, 0, 0, 0, 0, 0, 1, 0, 0, 0, 1]] [[5, 20]] 4 3 =
      (totalHits 20 4 3
        (List.zip [[0, 0, 0, 1, 0, 0, 0, 1, 0, 0, 0, 0, 0, 0, 0, 1, 0, 0, 0, 1]] [[5, 20]]) : ℚ) /
      (totalValidTrue 20
        (List.zip [[0, 0, 0, 1, 0, 0, 0, 1, 0, 0, 0, 0, 0, 0, 0, 1, 0, 0, 0, 1]] [[5, 20]]) : ℚ) :=
  claim_C2_recall_topk.1
    [[0, 0, 0, 1, 0, 0, 0, 1, 0, 0, 0, 0, 0, 0, 0, 1, 0, 0, 0, 1]] [[5, 20]] 4 3
    (by decide) (by decide) (by decide) (by decide)

/-- C3: `calculate_accuracy_topk` returns 0 on an empty batch and
whenever the clamped k is non-positive; and on a non-empty batch with
positive clamped k in which no sample has any valid (non-sentinel,
in-range) true label it returns exactly 1, whatever the predicted
probabilities are. -/
theorem claim_C3_recall_degenerate :
    (∀ (tb : List (List ℤ)) (k tol : ℤ), calculate_accuracy_topk [] tb k tol = 0) ∧
    (∀ (pp : List (List ℚ)) (tb : List (List ℤ)) (k tol : ℤ),
      min k (((pp.headD []).length : ℤ)) ≤ 0 → calculate_accuracy_topk pp tb k tol = 0) ∧
    (∀ (pp : List (List ℚ)) (tb : List (List ℤ)) (k tol : ℤ),
      pp ≠ [] → 0 < min k (((pp.headD []).length : ℤ)) →
      totalValidTrue (pp.headD []).length (List.zip pp tb) = 0 →
      calculate_accuracy_topk pp tb k tol = 1) := by
  refine ⟨?_, ?_, ?_⟩
  · intro tb k tol
    simp [calculate_accuracy_topk]
  · intro pp tb k tol hk
    by_cases h0 : pp.length = 0
    · simp only [calculate_accuracy_topk]
      rw [if_pos h0]
    · simp only [calculate_accuracy_topk]
      rw [if_neg h0, if_pos hk]
  · intro pp tb k tol hpp hk hval
    rw [calc_acc_unfold pp tb k tol hpp hk, if_pos hval]

/-- Witness for C3: a non-empty batch whose only true labels are the
sentinel and an out-of-range index yields recall 1. -/
theorem claim_C3_witness :
    calculate_accuracy_topk [[(1:ℚ), 1]] [[-1, 5]] 1 0 = 1 :=
  claim_C3_recall_degenerate.2.2 [[(1:ℚ), 1]] [[-1, 5]] 1 0 (by decide) (by decide) (by decide)

/-- The minimum of a non-empty list of power levels is invariant under
reordering of the list. -/
theorem criticalValPt_perm (l1 l2 : List ℚ) (hne : l1 ≠ []) (hp : l1.Perm l2) :
    criticalValPt l1 = criticalValPt l2 := by
  have hne2 : l2 ≠ [] := fun h2 => hne (List.Perm.eq_nil (h2 ▸ hp))
  obtain ⟨a, ha⟩ : ∃ a, l1.min? = some a := by
    cases h : l1.min? with
    | none => exact absurd (List.min?_eq_none_iff.mp h) hne
    | some a => exact ⟨a, rfl⟩
  obtain ⟨b, hb⟩ : ∃ b, l2.min? = some b := by
    cases h : l2.min? with
    | none => exact absurd (List.min?_eq_none_iff.mp h) hne2
    | some b => exact ⟨b, rfl⟩
  have hamem := List.min?_mem (fun x y : ℚ => min_choice x y) ha
  have hbmem := List.min?_mem (fun x y : ℚ => min_choice x y) hb
  have hale : ∀ c ∈ l1, a ≤ c :=
    (List.le_min?_iff (fun x y z : ℚ => le_min_iff) ha).mp (le_refl a)
  have hble : ∀ c ∈ l2, b ≤ c :=
    (List.le_min?_iff (fun x y z : ℚ => le_min_iff) hb).mp (le_refl b)
  have h1 : a ≤ b := hale b (hp.mem_iff.mpr hbmem)
  have h2 : b ≤ a := hble a (hp.mem_iff.mp hamem)
  unfold criticalValPt
  rw [ha, hb, le_antisymm h1 h2]

/-- C7 (amended): the early-stopping signal is the validation loss at the
critical power level, the minimum of the configured list regardless of
the order supplied; on a valid validation run (some level with a positive
batch count) with strictly improved critical loss a checkpoint is saved
and the counter resets to 0; on a valid run without improvement the
counter increments and training stops exactly when it reaches patience;
when no level produced a valid batch the counter (and best loss) are left
unchanged and no stop occurs. -/
theorem claim_C7_early_stopping :
    (∀ (l1 l2 : List ℚ), l1 ≠ [] → l1.Perm l2 → criticalValPt l1 = criticalValPt l2) ∧
    (∀ (patience : ℕ) (l : List ℚ) (records : ℚ → LevelRecord) (s : EarlyStopState),
      (l.any fun pt => decide (0 < (records pt).count)) = true →
      (records (criticalValPt l)).loss < s.best_val_loss →
      mainEpochStep l records patience s =
        ⟨⟨(records (criticalValPt l)).loss, 0⟩, true, false⟩) ∧
    (∀ (patience : ℕ) (l : List ℚ) (records : ℚ → LevelRecord) (s : EarlyStopState),
      (l.any fun pt => decide (0 < (records pt).count)) = true →
      ¬((records (criticalValPt l)).loss < s.best_val_loss) →
      mainEpochStep l records patience s =
        ⟨⟨s.best_val_loss, s.early_stop_counter + 1⟩, false,
         decide (patience ≤ s.early_stop_counter + 1)⟩) ∧
    (∀ (patience : ℕ) (l : List ℚ) (records : ℚ → LevelRecord) (s : EarlyStopState),
      (l.any fun pt => decide (0 < (records pt).count)) = false →
      mainEpochStep l records patience s = ⟨s, false, false⟩) := by
  refine ⟨criticalValPt_perm, ?_, ?_, ?_⟩
  · intro patience l records s hvr hlt
    unfold mainEpochStep epochUpdate
    rw [if_pos ⟨hvr, hlt⟩]
  · intro patience l records s hvr hlt
    unfold mainEpochStep epochUpdate
    rw [if_neg (fun hc => hlt hc.2), if_pos hvr]
  · intro patience l records s hvr
    unfold mainEpochStep epochUpdate
    rw [if_neg (fun hc => by rw [hvr] at hc; exact Bool.false_ne_true hc.1),
        if_neg (fun hc => by rw [hvr] at hc; exact Bool.false_ne_true hc)]

/-- Counterexample to C7 as stated: with no valid validation batch at any
level (all counts 0) and no improvement, the code leaves the early-stop
counter unchanged (here 3), whereas the claim's "otherwise the counter is
incremented" predicts 4. -/
theorem claim_C7_counterexample :
    (mainEpochStep [0] (fun _ => ⟨⊤, 0, 0⟩) 7
        ⟨((5 : ℚ) : WithTop ℚ), 3⟩).state.early_stop_counter = 3 ∧
    (mainEpochStep [0] (fun _ => ⟨⊤, 0, 0⟩) 7
        ⟨((5 : ℚ) : WithTop ℚ), 3⟩).state.early_stop_counter ≠ 3 + 1 := by
  have h : mainEpochStep [0] (fun _ => ⟨⊤, 0, 0⟩) 7 ⟨((5 : ℚ) : WithTop ℚ), 3⟩ =
      ⟨⟨((5 : ℚ) : WithTop ℚ), 3⟩, false, false⟩ :=
    claim_C7_early_stopping.2.2.2 7 [0] (fun _ => ⟨⊤, 0, 0⟩) ⟨((5 : ℚ) : WithTop ℚ), 3⟩ rfl
  rw [h]
  exact ⟨rfl, by decide⟩

/-- Witness for C7: supplied in the order `[10, -10, 0]`, the critical
level is −10 dBm; an improved loss there saves a checkpoint and resets
the counter. -/
theorem claim_C7_witness :
    mainEpochStep [10, -10, 0]
      (fun pt => if pt = -10 then ⟨((2 : ℚ) : WithTop ℚ), 1/2, 5⟩
                 else ⟨((1 : ℚ) : WithTop ℚ), 1, 5⟩) 7 ⟨⊤, 0⟩ =
      ⟨⟨((2 : ℚ) : WithTop ℚ), 0⟩, true, false⟩ := by
  have h := claim_C7_early_stopping.2.1 7 [10, -10, 0]
    (fun pt => if pt = -10 then ⟨((2 : ℚ) : WithTop ℚ), 1/2, 5⟩
               else ⟨((1 : ℚ) : WithTop ℚ), 1, 5⟩) ⟨⊤, 0⟩ (by decide)
    (by
      have hc : criticalValPt [(10 : ℚ), -10, 0] = -10 := by decide
      rw [hc]
      exact WithTop.coe_lt_top _)
  have hc : criticalValPt [(10 : ℚ), -10, 0] = -10 := by decide
  rw [hc] at h
  simpa using h

/-- C8: a training batch whose loss is NaN or Inf performs no optimizer
update — the parameters after the step are exactly the parameters before
it — increments the per-epoch skip counter by one, touches none of the
other accumulators, and (being a total function) raises nothing, so the
run continues with the next batch; a batch with finite loss
back-propagates, clips the gradient norm when the configured ceiling is
positive, steps the optimizer, and accumulates the loss and Top-K
accuracy. -/
theorem claim_C8_nan_inf_skip :
    ∀ {α β : Type} (clip_grad_norm : ℚ) (backward : α → β) (clipGradNorm : ℚ → β → β)
      (optStep : α → β → α) (k tolerance : ℤ) (loss : FVal) (pred_probs : List (List ℚ))
      (m_peak_targets : List (List ℤ)) (s : TrainBatchState α),
      ((loss.isNaN = true ∨ loss.isInf = true) →
        trainBatchStep clip_grad_norm backward clipGradNorm optStep k tolerance loss
            pred_probs m_peak_targets s =
          { s with nan_skipped_count := s.nan_skipped_count + 1 }) ∧
      (∀ q : ℚ, loss = .fin q →
        trainBatchStep clip_grad_norm backward clipGradNorm optStep k tolerance loss
            pred_probs m_peak_targets s =
          { params := optStep s.params
              (if 0 < clip_grad_norm then clipGradNorm clip_grad_norm (backward s.params)
               else backward s.params)
            nan_skipped_count := s.nan_skipped_count
            train_batch_count := s.train_batch_count + 1
            epoch_train_loss := s.epoch_train_loss + q
            epoch_train_topk_accuracy_sum := s.epoch_train_topk_accuracy_sum +
              calculate_accuracy_topk pred_probs m_peak_targets k tolerance
            train_acc_batches := s.train_acc_batches + 1 }) := by
  intro α β clip_grad_norm backward clipGradNorm optStep k tolerance loss pred_probs
    m_peak_targets s
  constructor
  · intro h
    have hcond : (loss.isNaN || loss.isInf) = true := by
      rcases h with h | h <;> simp [h]
    unfold trainBatchStep
    rw [if_pos hcond]
  · intro q hq
    subst hq
    unfold trainBatchStep
    rw [if_neg (by simp [FVal.isNaN, FVal.isInf])]
    rfl

/-- Witness for C8: a NaN-loss batch on a concrete state leaves the
parameters at 0 and bumps only the skip counter. -/
theorem claim_C8_witness :
    trainBatchStep (α := ℕ) (β := ℕ) 5 (fun p => p) (fun _ g => g) (fun p _ => p + 1)
      4 3 .nan [] [] ⟨0, 0, 0, 0, 0, 0⟩ = ⟨0, 1, 0, 0, 0, 0⟩ :=
  (claim_C8_nan_inf_skip 5 (fun p => p) (fun _ g => g) (fun p _ => p + 1)
    4 3 .nan [] [] ⟨0, 0, 0, 0, 0, 0⟩).1 (Or.inl rfl)

/-- A power level all of whose batches have NaN/Inf loss accumulates
nothing. -/
theorem aggregateLevel_all_nonfinite (batches : List (FVal × ℚ))
    (h : ∀ b ∈ batches, b.1.isNaN = true ∨ b.1.isInf = true) :
    aggregateLevel batches = ⟨⊤, 0, 0⟩ := by
  have hfold : ∀ init : ℚ × ℚ × ℕ,
      batches.foldl
        (fun (acc : ℚ × ℚ × ℕ) b =>
          if b.1.isNaN || b.1.isInf then acc
          else (acc.1 + b.1.item, acc.2.1 + b.2, acc.2.2 + 1)) init = init := by
    induction batches with
    | nil => intro init; rfl
    | cons b rest ih =>
      intro init
      have hb : (b.1.isNaN || b.1.isInf) = true := by
        rcases h b (List.mem_cons_self _ _) with hx | hx <;> simp [hx]
      rw [List.foldl_cons, if_pos hb]
      exact ih (fun x hx => h x (List.mem_cons_of_mem _ hx)) init
  unfold aggregateLevel
  rw [hfold]
  rfl

/-- C10: a power level at which no batch produced a finite loss reports
exactly `{loss := +∞, accuracy := 0, count := 0}`; consequently an epoch
whose critical-level validation has no valid batch can never improve the
best validation loss (and saves no checkpoint), since `+∞ < best` never
holds. -/
theorem claim_C10_infinite_loss_record :
    (∀ batches : List (FVal × ℚ),
      (∀ b ∈ batches, b.1.isNaN = true ∨ b.1.isInf = true) →
      aggregateLevel batches = ⟨⊤, 0, 0⟩) ∧
    (∀ (batches : List (FVal × ℚ)) (patience : ℕ) (valid_run : Bool) (s : EarlyStopState),
      (∀ b ∈ batches, b.1.isNaN = true ∨ b.1.isInf = true) →
      (epochUpdate patience valid_run (aggregateLevel batches).loss s).state.best_val_loss =
        s.best_val_loss ∧
      (epochUpdate patience valid_run (aggregateLevel batches).loss s).saved = false) := by
  refine ⟨aggregateLevel_all_nonfinite, ?_⟩
  intro batches patience valid_run s h
  rw [aggregateLevel_all_nonfinite batches h]
  unfold epochUpdate
  rw [if_neg (fun hc => not_top_lt hc.2)]
  constructor
  · split <;> rfl
  · split <;> rfl

/-- Witness for C10: one NaN batch at the critical level leaves the best
loss at 5 and saves nothing. -/
theorem claim_C10_witness :
    (epochUpdate 7 true (aggregateLevel [(.nan, 0)]).loss
        ⟨((5 : ℚ) : WithTop ℚ), 2⟩).state.best_val_loss = ((5 : ℚ) : WithTop ℚ) ∧
    (epochUpdate 7 true (aggregateLevel [(.nan, 0)]).loss
        ⟨((5 : ℚ) : WithTop ℚ), 2⟩).saved = false :=
  claim_C10_infinite_loss_record.2 [(.nan, 0)] 7 true ⟨((5 : ℚ) : WithTop ℚ), 2⟩
    (fun b hb => by
      rw [List.mem_singleton.mp hb]
      exact Or.inl rfl)
